import Mathlib

/-!
Verification of the statistical estimation library (src/stats/misc.py and
src/stats/inference/estimation/proportion.py).

Modelling conventions for the shallow embedding:

* Python floats are modelled as real numbers (`ℝ`).
* Python `/` on built-in floats raises `ZeroDivisionError` on a zero divisor
  and `math.sqrt` raises `ValueError` on a negative argument; code paths whose
  intermediate values are built-in numbers are therefore embedded in
  `Except String`, with the error string naming the Python exception.
* In `welch_ttest` the intermediate values are pandas/numpy float64 scalars,
  for which division by zero and 0-length/1-length variance produce non-finite
  values (NaN or infinity) with no exception.  Those values are modelled as
  `Option ℝ`, `none` standing for a non-finite float, with strict
  (`none`-propagating) arithmetic.
* The scipy statistical backend (`st.norm.cdf`, `st.norm.sf`, `st.norm.ppf`,
  `st.t.cdf`, `st.t.sf`, `st.t.ppf`) is an external library, not part of this
  repository; each embedded function receives the backend functions it uses as
  explicit function parameters.
* `str.lower()` is modelled by `strLower` (character-wise ASCII lowering),
  since all strings compared against it here are ASCII.
* The `popl_size` / `N` parameter (`None` or an `int`) is modelled as
  `Option ℤ`; Python's truthiness test `if popl_size:` is false exactly for
  `None` and `0`.
* The final `print` readouts and the pandas `DataFrame` packaging are
  presentation only; the embedded functions return a structure holding the
  values the source puts into the returned `DataFrame` (plus the lift interval
  bounds, which the source also computes before returning).
-/

set_option maxHeartbeats 1600000

/-- ASCII model of Python's `str.lower()`. -/
def strLower (s : String) : String := ⟨s.data.map Char.toLower⟩

/-- Division of built-in Python floats: raises `ZeroDivisionError` on a zero
divisor, otherwise returns the exact quotient. -/
noncomputable def zdiv (a b : ℝ) : Except String ℝ :=
  if b = 0 then .error "ZeroDivisionError" else .ok (a / b)

/-- Model of `math.sqrt` on built-in floats: raises `ValueError` on a negative
argument. -/
noncomputable def ssqrt (x : ℝ) : Except String ℝ :=
  if x < 0 then .error "ValueError" else .ok (Real.sqrt x)

/-- Strict addition on possibly-non-finite (numpy) values. -/
def nadd : Option ℝ → Option ℝ → Option ℝ
  | some a, some b => some (a + b)
  | _, _ => none

/-- Strict subtraction on possibly-non-finite (numpy) values. -/
def nsub : Option ℝ → Option ℝ → Option ℝ
  | some a, some b => some (a - b)
  | _, _ => none

/-- Strict multiplication on possibly-non-finite (numpy) values. -/
def nmul : Option ℝ → Option ℝ → Option ℝ
  | some a, some b => some (a * b)
  | _, _ => none

/-- Division on possibly-non-finite (numpy) values: numpy turns a zero divisor
into a non-finite result (with a runtime warning, not an exception). -/
noncomputable def ndiv : Option ℝ → Option ℝ → Option ℝ
  | some a, some b => if b = 0 then none else some (a / b)
  | _, _ => none

/-- Model of `math.sqrt` applied to a possibly-non-finite numpy value: NaN
propagates, a negative argument cannot occur on the paths that use this. -/
noncomputable def nsqrt : Option ℝ → Option ℝ
  | some x => if x < 0 then none else some (Real.sqrt x)
  | none => none

/-- Strict lifting of a unary backend function over a possibly-NaN value
(scipy functions map NaN to NaN). -/
def nmap (f : ℝ → ℝ) : Option ℝ → Option ℝ
  | some a => some (f a)
  | none => none

/-- Strict lifting of a binary backend function over possibly-NaN values
(scipy functions map NaN to NaN). -/
def nmap2 (f : ℝ → ℝ → ℝ) : Option ℝ → Option ℝ → Option ℝ
  | some a, some b => some (f a b)
  | _, _ => none

/-- Pointwise combination of three equal-length numpy arrays (the general
`min`-truncating zipper; the source only applies it at equal lengths). -/
def zip3With (f : ℝ → ℝ → ℝ → ℝ) : List ℝ → List ℝ → List ℝ → List ℝ
  | a :: as, b :: bs, c :: cs => f a b c :: zip3With f as bs cs
  | _, _, _ => []

namespace misc

/-- Embedding of `confint(x, stat, se, ha)` from src/stats/misc.py (the `ha`
parameter is accepted but unused: the directional branches are commented out
in the source). -/
noncomputable def confint (x stat se : ℝ) (ha : String) : ℝ × ℝ :=
  (x - stat * se, x + stat * se)

/-- Embedding of `_ztest_p(z, ha)` from src/stats/misc.py.  For any `ha` other
than the three full words no branch assigns `p`, and the trailing `return p`
raises `UnboundLocalError`. -/
noncomputable def ztestP (cdf sf : ℝ → ℝ) (z : ℝ) (ha : String) : Except String ℝ :=
  if ha = "less" then .ok (cdf z)
  else if ha = "greater" then .ok (sf z)
  else if ha = "two-sided" then .ok (2 * sf |z|)
  else .error "UnboundLocalError"

/-- Values that `ztest_2prop` computes and returns in its output `DataFrame`
(rows: control, treatment, z-score, p-value, lift, diff, CI lower, CI upper),
together with the lift interval bounds it computes for the printout. -/
structure ZtestResult where
  pCtrl : ℝ
  pTreat : ℝ
  z : ℝ
  p : ℝ
  lift : ℝ
  diff : ℝ
  ciLwr : ℝ
  ciUpr : ℝ
  liftLwr : ℝ
  liftUpr : ℝ

/-- Embedding of `ztest_2prop` from src/stats/misc.py.  All intermediate
values are built-in Python numbers, so zero divisors raise
`ZeroDivisionError`.  `valid_ha` is the source's six-token set; the alias
tokens pass this validation but are not handled by `_ztest_p`. -/
noncomputable def ztest_2prop (cdf sf ppf : ℝ → ℝ)
    (x_treat n_treat x_ctrl n_ctrl alpha : ℝ) (ha : String) :
    Except String ZtestResult :=
  let ha := strLower ha
  if ha ∉ (["two-sided", "t", "greater", "g", "less", "l"] : List String) then
    .error "ValueError"
  else
    match zdiv x_treat n_treat with
    | .error e => .error e
    | .ok p_treat =>
    match zdiv x_ctrl n_ctrl with
    | .error e => .error e
    | .ok p_ctrl =>
    match zdiv (x_treat + x_ctrl) (n_treat + n_ctrl) with
    | .error e => .error e
    | .ok p_pooled =>
    match ssqrt (p_pooled * (1 - p_pooled) * (1 / n_treat + 1 / n_ctrl)) with
    | .error e => .error e
    | .ok se =>
    match zdiv (p_treat - p_ctrl) se with
    | .error e => .error e
    | .ok z =>
    match ztestP cdf sf z ha with
    | .error e => .error e
    | .ok p =>
      let one_sided : Bool := ha == "greater" || ha == "less"
      let z_critical := ppf (1 - alpha / (1 + (if one_sided then (0 : ℝ) else 1)))
      let ci := confint (p_treat - p_ctrl) z_critical se ha
      match zdiv p_treat p_ctrl with
      | .error e => .error e
      | .ok ratio =>
      match zdiv ci.1 p_ctrl with
      | .error e => .error e
      | .ok lift_lwr =>
      match zdiv ci.2 p_ctrl with
      | .error e => .error e
      | .ok lift_upr =>
        .ok { pCtrl := p_ctrl, pTreat := p_treat, z := z, p := p,
              lift := ratio - 1, diff := p_treat - p_ctrl,
              ciLwr := ci.1, ciUpr := ci.2,
              liftLwr := lift_lwr, liftUpr := lift_upr }

/-- Embedding of `_ttest_p(t, dof, ha)` from src/stats/misc.py, applied to
possibly-NaN numpy arguments (scipy maps NaN arguments to NaN). -/
noncomputable def ttestP (tcdf tsf : ℝ → ℝ → ℝ) (t dof : Option ℝ) (ha : String) :
    Except String (Option ℝ) :=
  if ha = "less" then .ok (nmap2 tcdf t dof)
  else if ha = "greater" then .ok (nmap2 tsf t dof)
  else if ha = "two-sided" then .ok (nmap2 (fun a b => 2 * tsf |a| b) t dof)
  else .error "UnboundLocalError"

/-- Mean of a pandas series: NaN (`none`) on an empty series. -/
noncomputable def seriesMean (xs : List ℝ) : Option ℝ :=
  if xs.length = 0 then none
  else some (xs.sum / (xs.length : ℝ))

/-- Bessel-corrected (ddof=1) sample variance of a pandas series: NaN
(`none`) when there are fewer than two observations. -/
noncomputable def seriesVar (xs : List ℝ) : Option ℝ :=
  if xs.length < 2 then none
  else some ((xs.map (fun x => (x - xs.sum / (xs.length : ℝ)) ^ 2)).sum /
              ((xs.length : ℝ) - 1))

/-- Embedding of `confint(x, stat, se, ha)` from src/stats/misc.py as called
from `welch_ttest`, where the operands are possibly-NaN numpy values. -/
noncomputable def confintN (x stat se : Option ℝ) (ha : String) :
    Option ℝ × Option ℝ :=
  (nsub x (nmul stat se), nadd x (nmul stat se))

/-- Values that `welch_ttest` computes and returns in its output `DataFrame`
(rows: control, treatment, t-score, p-value, DoF, lift, diff, CI lower, CI
upper), together with the lift interval bounds it computes for the
printout. -/
structure WelchResult where
  meanCtrl : Option ℝ
  meanTreat : Option ℝ
  t : Option ℝ
  p : Option ℝ
  dof : Option ℝ
  lift : Option ℝ
  diff : Option ℝ
  ciLwr : Option ℝ
  ciUpr : Option ℝ
  liftLwr : Option ℝ
  liftUpr : Option ℝ

/-- Embedding of `welch_ttest` from src/stats/misc.py.  The group statistics
are pandas/numpy values, so undefined quantities (variance of fewer than two
observations, zero divisors) become NaN and propagate instead of raising. -/
noncomputable def welch_ttest (tcdf tsf tppf : ℝ → ℝ → ℝ)
    (treat ctrl : List ℝ) (alpha : ℝ) (ha : String) :
    Except String WelchResult :=
  let ha := strLower ha
  if ha ∉ (["two-sided", "greater", "less"] : List String) then
    .error "ValueError"
  else
    let n_treat : ℝ := treat.length
    let n_ctrl : ℝ := ctrl.length
    let mean_treat := seriesMean treat
    let mean_ctrl := seriesMean ctrl
    let var_treat := seriesVar treat
    let var_ctrl := seriesVar ctrl
    let seSq := nadd (ndiv var_treat (some n_treat)) (ndiv var_ctrl (some n_ctrl))
    let se := nsqrt seSq
    let t := ndiv (nsub mean_treat mean_ctrl) se
    let dof := ndiv (nmul seSq seSq)
      (nadd
        (ndiv (nmul (ndiv var_treat (some n_treat)) (ndiv var_treat (some n_treat)))
          (some (n_treat - 1)))
        (ndiv (nmul (ndiv var_ctrl (some n_ctrl)) (ndiv var_ctrl (some n_ctrl)))
          (some (n_ctrl - 1))))
    match ttestP tcdf tsf t dof ha with
    | .error e => .error e
    | .ok p =>
      let one_sided : Bool := ha == "greater" || ha == "less"
      let t_critical :=
        nmap (fun d => tppf (1 - alpha / (1 + (if one_sided then (0 : ℝ) else 1))) d) dof
      let ci := confintN (nsub mean_treat mean_ctrl) t_critical se ha
      .ok { meanCtrl := mean_ctrl, meanTreat := mean_treat, t := t, p := p,
            dof := dof, lift := nsub (ndiv mean_treat mean_ctrl) (some 1),
            diff := nsub mean_treat mean_ctrl,
            ciLwr := ci.1, ciUpr := ci.2,
            liftLwr := ndiv ci.1 mean_ctrl, liftUpr := ndiv ci.2 mean_ctrl }

/-- Embedding of `f_score(precision, recall, beta)` from src/stats/misc.py
(the source's `recall` parameter is spelled `recall_` here because `recall` is
a reserved word in this development's proof language).  The inputs are
built-in floats, so a zero denominator (as at `precision = recall = 0`)
raises `ZeroDivisionError`. -/
noncomputable def f_score (precision recall_ beta : ℝ) : Except String ℝ :=
  if beta ^ 2 * precision + recall_ = 0 then .error "ZeroDivisionError"
  else .ok ((1 + beta ^ 2) * (precision * recall_) / (beta ^ 2 * precision + recall_))

/-- Embedding of `pop_prop_sample_size(d, p, N, cl)` from src/stats/misc.py. -/
noncomputable def pop_prop_sample_size (ppf : ℝ → ℝ) (d p : ℝ) (N : Option ℤ)
    (cl : ℝ) : Except String ℤ :=
  let alpha := 1 - cl
  let z := ppf (1 - alpha / 2)
  match N with
  | some n =>
    if n = 0 then
      match zdiv (z ^ 2 * p * (1 - p)) (d ^ 2) with
      | .error e => .error e
      | .ok q => .ok ⌈q⌉
    else
      match zdiv (((n : ℝ) - 1) * d ^ 2) (z ^ 2) with
      | .error e => .error e
      | .ok frac =>
        match zdiv ((n : ℝ) * p * (1 - p)) (frac + p * (1 - p)) with
        | .error e => .error e
        | .ok q => .ok ⌈q⌉
  | none =>
    match zdiv (z ^ 2 * p * (1 - p)) (d ^ 2) with
    | .error e => .error e
    | .ok q => .ok ⌈q⌉

end misc

namespace proportion

/-- Embedding of `sample_size(moe, prop, popl_size, alpha)` from
src/stats/inference/estimation/proportion.py.  The function performs no
argument validation; the only failure modes are the Python float
`ZeroDivisionError`s of the two quotients. -/
noncomputable def sample_size (ppf : ℝ → ℝ) (moe prop : ℝ) (popl_size : Option ℤ)
    (alpha : ℝ) : Except String ℤ :=
  let cv := ppf (1 - alpha / 2)
  match popl_size with
  | some n =>
    if n = 0 then
      match zdiv (cv ^ 2 * prop * (1 - prop)) (moe ^ 2) with
      | .error e => .error e
      | .ok q => .ok ⌈q⌉
    else
      match zdiv (((n : ℝ) - 1) * moe ^ 2) (cv ^ 2) with
      | .error e => .error e
      | .ok frac =>
        match zdiv ((n : ℝ) * prop * (1 - prop)) (frac + prop * (1 - prop)) with
        | .error e => .error e
        | .ok q => .ok ⌈q⌉
  | none =>
    match zdiv (cv ^ 2 * prop * (1 - prop)) (moe ^ 2) with
    | .error e => .error e
    | .ok q => .ok ⌈q⌉

/-- Embedding of `confint(prop, sample_size, alpha)` from
src/stats/inference/estimation/proportion.py. -/
noncomputable def confint (ppf : ℝ → ℝ) (prop : ℝ) (sample_size : ℝ)
    (alpha : ℝ) : ℝ × ℝ :=
  let cv := ppf (1 - alpha / 2)
  let var := prop * (1 - prop) / sample_size
  let moe := cv * Real.sqrt var
  (prop - moe, prop + moe)

/-- Embedding of `strat_proportion(props, strat_sizes)` from
src/stats/inference/estimation/proportion.py (numpy elementwise arithmetic on
equal-length arrays is `List.zipWith`). -/
noncomputable def strat_proportion (props strat_sizes : List ℝ) : ℝ :=
  let popl_size := strat_sizes.sum
  let weights := strat_sizes.map (fun s => s / popl_size)
  (List.zipWith (fun w p => w * p) weights props).sum

/-- Embedding of `strat_confint(props, sample_sizes, strat_sizes, alpha)` from
src/stats/inference/estimation/proportion.py. -/
noncomputable def strat_confint (ppf : ℝ → ℝ)
    (props sample_sizes strat_sizes : List ℝ) (alpha : ℝ) : ℝ × ℝ :=
  let cv := ppf (1 - alpha / 2)
  let popl_size := strat_sizes.sum
  let prop := strat_proportion props strat_sizes
  let var := List.zipWith (fun n p => n / (n - 1) * p * (1 - p)) sample_sizes props
  let se := Real.sqrt
    (zip3With (fun s n v => s ^ 2 * (1 / popl_size) ^ 2 * (1 - n / s) * v / n)
      strat_sizes sample_sizes var).sum
  let moe := cv * se
  (prop - moe, prop + moe)

end proportion

/-- Spec-side definition for C4 (to be compared with the source embedding):
the strat-size-weighted proportion, written as an indexed sum — weight of
stratum `i` is `strat_size_i / popl_size` with `popl_size = Σ strat_size`. -/
noncomputable def specWeightedProportion (props strat_sizes : List ℝ) : ℝ :=
  ∑ i in Finset.range props.length,
    strat_sizes.getD i 0 / strat_sizes.sum * props.getD i 0

/-- Spec-side definition for C4 (to be compared with the source embedding):
`se = sqrt( Σ strat_size_i² · (1/popl_size)² · (1 - sample_size_i/strat_size_i)
· var_i / sample_size_i )` with the per-stratum variance
`var_i = n_i/(n_i - 1) · p_i(1-p_i)` taken at the stratum's sample size. -/
noncomputable def specStratSE (props sample_sizes strat_sizes : List ℝ) : ℝ :=
  Real.sqrt (∑ i in Finset.range props.length,
    strat_sizes.getD i 0 ^ 2 * (1 / strat_sizes.sum) ^ 2 *
      (1 - sample_sizes.getD i 0 / strat_sizes.getD i 0) *
      (sample_sizes.getD i 0 / (sample_sizes.getD i 0 - 1) *
        props.getD i 0 * (1 - props.getD i 0)) / sample_sizes.getD i 0)

theorem zdiv_ok {b : ℝ} (a : ℝ) (h : b ≠ 0) : zdiv a b = .ok (a / b) := by
  simp [zdiv, h]

theorem sum_zipWith_eq_range (f : ℝ → ℝ → ℝ) :
    ∀ (a b : List ℝ), a.length = b.length →
      (List.zipWith f a b).sum =
        ∑ i in Finset.range a.length, f (a.getD i 0) (b.getD i 0) := by
  intro a
  induction a with
  | nil => intro b h; simp
  | cons x xs ih =>
    intro b h
    cases b with
    | nil => simp at h
    | cons y ys =>
      simp only [List.zipWith_cons_cons, List.sum_cons, List.length_cons]
      rw [Finset.sum_range_succ']
      simp only [List.getD_cons_succ, List.getD_cons_zero]
      rw [ih ys (by simpa using h)]
      exact (add_comm _ _)

theorem sum_zip3With_eq_range (f : ℝ → ℝ → ℝ → ℝ) :
    ∀ (a b c : List ℝ), a.length = b.length → b.length = c.length →
      (zip3With f a b c).sum =
        ∑ i in Finset.range a.length, f (a.getD i 0) (b.getD i 0) (c.getD i 0) := by
  intro a
  induction a with
  | nil => intro b c h1 h2; simp [zip3With]
  | cons x xs ih =>
    intro b c h1 h2
    cases b with
    | nil => simp at h1
    | cons y ys =>
      cases c with
      | nil => simp at h2
      | cons z zs =>
        simp only [zip3With, List.sum_cons, List.length_cons]
        rw [Finset.sum_range_succ']
        simp only [List.getD_cons_succ, List.getD_cons_zero]
        rw [ih ys zs (by simpa using h1) (by simpa using h2)]
        exact (add_comm _ _)

theorem getD_zipWith_combine (g : ℝ → ℝ → ℝ) :
    ∀ (a b : List ℝ) (i : ℕ), i < a.length → i < b.length →
      (List.zipWith g a b).getD i 0 = g (a.getD i 0) (b.getD i 0) := by
  intro a
  induction a with
  | nil => intro b i h1 h2; simp at h1
  | cons x xs ih =>
    intro b i h1 h2
    cases b with
    | nil => simp at h2
    | cons y ys =>
      cases i with
      | zero => simp
      | succ j =>
        simp only [List.zipWith_cons_cons, List.getD_cons_succ]
        exact ih ys j (by simpa using h1) (by simpa using h2)

theorem zdiv_err {b : ℝ} (a : ℝ) (h : b = 0) : zdiv a b = .error "ZeroDivisionError" := by
  simp [zdiv, h]

theorem ssqrt_ok {x : ℝ} (h : 0 ≤ x) : ssqrt x = .ok (Real.sqrt x) := by
  simp [ssqrt, not_lt.mpr h]

/-- C10: the two duplicate implementations of the proportion sample-size
formula are equivalent: for every margin of error `d`, proportion `p`,
population size `N` and confidence level `cl`, `pop_prop_sample_size d p N cl`
returns exactly the same result as `sample_size d p N (1 - cl)` (both run
against the same normal-quantile backend `ppf`). -/
theorem c10_sample_size_duplicate_equiv (ppf : ℝ → ℝ) (d p : ℝ) (N : Option ℤ)
    (cl : ℝ) :
    misc.pop_prop_sample_size ppf d p N cl =
      proportion.sample_size ppf d p N (1 - cl) := rfl

/-- C7 (amended): `f_score` performs no input validation — any inputs with a
nonzero denominator (including values outside `[0, 1]`) produce the plain
formula value.  (At `precision = recall = 0` the division by zero raises
`ZeroDivisionError` rather than propagating a NaN; see the counterexample.) -/
theorem c7_f_score_no_validation (precision recall_ beta : ℝ)
    (h : beta ^ 2 * precision + recall_ ≠ 0) :
    misc.f_score precision recall_ beta =
      .ok ((1 + beta ^ 2) * (precision * recall_) / (beta ^ 2 * precision + recall_)) := by
  simp [misc.f_score, h]

/-- Witness for C7: `f_score` accepts the out-of-range input
`precision = 2, recall = 3` without complaint. -/
theorem c7_f_score_no_validation_witness :
    misc.f_score 2 3 1 = .ok ((1 + 1 ^ 2) * (2 * 3) / (1 ^ 2 * 2 + 3)) :=
  c7_f_score_no_validation 2 3 1 (by norm_num)

/-- Counterexample for C7: at `precision = recall = 0` the division by zero is
an exception (`ZeroDivisionError` on built-in floats), not a propagated NaN
value. -/
theorem c7_counterexample : misc.f_score 0 0 1 = .error "ZeroDivisionError" := by
  norm_num [misc.f_score]

/-- C2: for `moe`, `prop`, `alpha` in `(0,1)`, `sample_size` without a
population size returns `ceil(z^2 * prop * (1-prop) / moe^2)` where `z` is the
backend's `1 - alpha/2` normal quantile; and at
`moe = 0.05, prop = 0.5, alpha = 0.05` the result is 385 (given the spec's
bracketing `1.9599 <= z(0.975) <= 1.96` of the backend quantile). -/
theorem c2_sample_size_formula (ppf : ℝ → ℝ) (moe prop alpha : ℝ)
    (hmoe1 : 0 < moe) (hmoe2 : moe < 1) (hprop1 : 0 < prop) (hprop2 : prop < 1)
    (halpha1 : 0 < alpha) (halpha2 : alpha < 1)
    (hz1 : 1.9599 ≤ ppf (1 - 0.05 / 2)) (hz2 : ppf (1 - 0.05 / 2) ≤ 1.96) :
    proportion.sample_size ppf moe prop none alpha =
      .ok ⌈ppf (1 - alpha / 2) ^ 2 * prop * (1 - prop) / moe ^ 2⌉ ∧
    proportion.sample_size ppf 0.05 0.5 none 0.05 = .ok 385 := by
  constructor
  · simp only [proportion.sample_size]
    rw [zdiv_ok _ (pow_ne_zero 2 hmoe1.ne')]
  · simp only [proportion.sample_size]
    rw [zdiv_ok _ (by norm_num : ((0.05 : ℝ)) ^ 2 ≠ 0)]
    simp only [Except.ok.injEq]
    rw [Int.ceil_eq_iff]
    constructor
    · rw [show ((385 : ℤ) : ℝ) - 1 = 384 by norm_num,
          lt_div_iff (by norm_num : (0 : ℝ) < 0.05 ^ 2)]
      nlinarith [hz1, hz2, sq_nonneg (ppf (1 - 0.05 / 2) - 1.9599)]
    · rw [div_le_iff (by norm_num : (0 : ℝ) < 0.05 ^ 2)]
      push_cast
      nlinarith [hz1, hz2, sq_nonneg (1.96 - ppf (1 - 0.05 / 2))]

/-- Witness for C2 at the concrete scenario, with a backend quantile inside
the spec's bracket. -/
theorem c2_sample_size_formula_witness :
    proportion.sample_size (fun _ => 1.95996) 0.05 0.5 none 0.05 = .ok 385 :=
  (c2_sample_size_formula (fun _ => 1.95996) 0.05 0.5 0.05
    (by norm_num) (by norm_num) (by norm_num) (by norm_num)
    (by norm_num) (by norm_num) (by norm_num) (by norm_num)).2

/-- C3 (amended): `sample_size` performs no argument validation and never
raises `InvalidArgument` — out-of-range `moe`, `prop` or `alpha` are accepted
(see the counterexample).  When `moe`, `prop`, `alpha` all lie in `(0,1)`
(with a positive backend quantile and a population size that is absent or at
least 1), the result is `.ok n` for the ceiling `n = ⌈q⌉ ≥ 1` of the positive
real ratio `q` — a ceiling (`q ≤ n`), never a truncation. -/
theorem c3_sample_size_no_validation (ppf : ℝ → ℝ) (moe prop alpha : ℝ)
    (popl_size : Option ℤ)
    (hmoe1 : 0 < moe) (hmoe2 : moe < 1) (hprop1 : 0 < prop) (hprop2 : prop < 1)
    (halpha1 : 0 < alpha) (halpha2 : alpha < 1)
    (hz : 0 < ppf (1 - alpha / 2))
    (hN : ∀ n ∈ popl_size, (1 : ℤ) ≤ n) :
    ∃ q : ℝ, ∃ n : ℤ,
      proportion.sample_size ppf moe prop popl_size alpha = .ok n ∧
      n = ⌈q⌉ ∧ 0 < q ∧ q ≤ (n : ℝ) ∧ 1 ≤ n := by
  have hprop3 : 0 < 1 - prop := by linarith
  cases popl_size with
  | none =>
    refine ⟨ppf (1 - alpha / 2) ^ 2 * prop * (1 - prop) / moe ^ 2, _, ?_, rfl, ?_, ?_, ?_⟩
    · simp only [proportion.sample_size]
      rw [zdiv_ok _ (pow_ne_zero 2 hmoe1.ne')]
    · exact div_pos (mul_pos (mul_pos (pow_pos hz 2) hprop1) hprop3) (pow_pos hmoe1 2)
    · exact Int.le_ceil _
    · have := Int.ceil_pos.mpr
        (div_pos (mul_pos (mul_pos (pow_pos hz 2) hprop1) hprop3) (pow_pos hmoe1 2))
      omega
  | some N =>
    have hN1 : (1 : ℤ) ≤ N := hN N rfl
    have hN0 : ¬(N = 0) := by omega
    have hNR : (1 : ℝ) ≤ (N : ℝ) := by exact_mod_cast hN1
    have hfrac : 0 ≤ ((N : ℝ) - 1) * moe ^ 2 / ppf (1 - alpha / 2) ^ 2 :=
      div_nonneg (mul_nonneg (by linarith) (sq_nonneg moe)) (sq_nonneg _)
    have hdenom : 0 < ((N : ℝ) - 1) * moe ^ 2 / ppf (1 - alpha / 2) ^ 2 + prop * (1 - prop) := by
      have := mul_pos hprop1 hprop3
      linarith
    have hnum : 0 < (N : ℝ) * prop * (1 - prop) :=
      mul_pos (mul_pos (by linarith) hprop1) hprop3
    refine ⟨(N : ℝ) * prop * (1 - prop) /
        (((N : ℝ) - 1) * moe ^ 2 / ppf (1 - alpha / 2) ^ 2 + prop * (1 - prop)),
      _, ?_, rfl, ?_, ?_, ?_⟩
    · simp only [proportion.sample_size, if_neg hN0,
        zdiv_ok _ (pow_ne_zero 2 hz.ne'), zdiv_ok _ hdenom.ne']
    · exact div_pos hnum hdenom
    · exact Int.le_ceil _
    · have := Int.ceil_pos.mpr (div_pos hnum hdenom)
      omega

/-- Witness for C3 at an in-range input with a finite population. -/
theorem c3_sample_size_no_validation_witness :
    ∃ q : ℝ, ∃ n : ℤ,
      proportion.sample_size (fun _ => 1.95996) 0.05 0.5 (some 1000) 0.05 = .ok n ∧
      n = ⌈q⌉ ∧ 0 < q ∧ q ≤ (n : ℝ) ∧ 1 ≤ n :=
  c3_sample_size_no_validation (fun _ => 1.95996) 0.05 0.5 0.05 (some 1000)
    (by norm_num) (by norm_num) (by norm_num) (by norm_num) (by norm_num)
    (by norm_num) (by norm_num) (by intro n hn; simp at hn; omega)

/-- Counterexample for C3: at the out-of-range margin of error `moe = 2` the
function does not fail at all — it returns the ordinary value 1 (shown with a
backend quantile fixed at the spec's value 1.95996). -/
theorem c3_counterexample :
    proportion.sample_size (fun _ => 1.95996) 2 0.5 none 0.05 = .ok 1 := by
  simp only [proportion.sample_size]
  rw [zdiv_ok _ (by norm_num : ((2 : ℝ)) ^ 2 ≠ 0)]
  simp only [Except.ok.injEq]
  rw [Int.ceil_eq_iff]
  norm_num

/-- C5 (amended): holding `prop` and `alpha` fixed, `sample_size` is
monotonically non-increasing in `moe`: for `0 < moe1 < moe2 < 1` the result at
`moe2` is at most the result at `moe1`.  Strict decrease fails (see the
counterexample: the ceiling collides at nearby margins). -/
theorem c5_sample_size_antitone (ppf : ℝ → ℝ) (moe1 moe2 prop alpha : ℝ)
    (h1 : 0 < moe1) (h12 : moe1 < moe2) (h2 : moe2 < 1)
    (hp1 : 0 < prop) (hp2 : prop < 1) (ha1 : 0 < alpha) (ha2 : alpha < 1) :
    ∃ n1 n2 : ℤ,
      proportion.sample_size ppf moe1 prop none alpha = .ok n1 ∧
      proportion.sample_size ppf moe2 prop none alpha = .ok n2 ∧ n2 ≤ n1 := by
  refine ⟨⌈ppf (1 - alpha / 2) ^ 2 * prop * (1 - prop) / moe1 ^ 2⌉,
          ⌈ppf (1 - alpha / 2) ^ 2 * prop * (1 - prop) / moe2 ^ 2⌉, ?_, ?_, ?_⟩
  · simp only [proportion.sample_size]
    rw [zdiv_ok _ (pow_ne_zero 2 h1.ne')]
  · simp only [proportion.sample_size]
    rw [zdiv_ok _ (pow_ne_zero 2 (by linarith : (0 : ℝ) < moe2).ne')]
  · apply Int.ceil_le_ceil
    apply div_le_div_of_nonneg_left
    · have h3 : 0 < 1 - prop := by linarith
      exact mul_nonneg (mul_nonneg (sq_nonneg _) hp1.le) h3.le
    · exact pow_pos h1 2
    · nlinarith [h1, h12]

/-- Witness for C5 at concrete margins 0.1 < 0.2. -/
theorem c5_sample_size_antitone_witness :
    ∃ n1 n2 : ℤ,
      proportion.sample_size (fun _ => 1.95996) 0.1 0.5 none 0.05 = .ok n1 ∧
      proportion.sample_size (fun _ => 1.95996) 0.2 0.5 none 0.05 = .ok n2 ∧ n2 ≤ n1 :=
  c5_sample_size_antitone (fun _ => 1.95996) 0.1 0.2 0.5 0.05
    (by norm_num) (by norm_num) (by norm_num) (by norm_num) (by norm_num)
    (by norm_num) (by norm_num)

/-- Counterexample for C5: with the backend quantile at the spec's value
1.95996 (true of the scipy quantile, which lies in `[1.9599, 1.96]`), the
margins `0.9 < 0.95` yield the same sample size 2 — the decrease is not
strict. -/
theorem c5_counterexample :
    proportion.sample_size (fun _ => 1.95996) 0.9 0.5 none 0.05 = .ok 2 ∧
    proportion.sample_size (fun _ => 1.95996) 0.95 0.5 none 0.05 = .ok 2 := by
  constructor
  · simp only [proportion.sample_size]
    rw [zdiv_ok _ (by norm_num : ((0.9 : ℝ)) ^ 2 ≠ 0)]
    simp only [Except.ok.injEq]
    rw [Int.ceil_eq_iff]
    norm_num
  · simp only [proportion.sample_size]
    rw [zdiv_ok _ (by norm_num : ((0.95 : ℝ)) ^ 2 ≠ 0)]
    simp only [Except.ok.injEq]
    rw [Int.ceil_eq_iff]
    norm_num

/-- C9: for `prop` in `(0,1)`, integer `sample_size > 0` and `alpha` in
`(0,1)` (the backend quantile at `1 - alpha/2` being positive, as the standard
normal quantile is on `(1/2, 1)`), `confint` returns exactly
`(prop - z*sqrt(prop(1-prop)/n), prop + z*sqrt(prop(1-prop)/n))` — no
clamping to `[0,1]` — and the bounds strictly bracket `prop`. -/
theorem c9_confint_brackets (ppf : ℝ → ℝ) (prop alpha : ℝ) (n : ℤ)
    (hp1 : 0 < prop) (hp2 : prop < 1) (hn : 0 < n)
    (ha1 : 0 < alpha) (ha2 : alpha < 1)
    (hz : 0 < ppf (1 - alpha / 2)) :
    proportion.confint ppf prop (n : ℝ) alpha =
      (prop - ppf (1 - alpha / 2) * Real.sqrt (prop * (1 - prop) / (n : ℝ)),
       prop + ppf (1 - alpha / 2) * Real.sqrt (prop * (1 - prop) / (n : ℝ))) ∧
    (proportion.confint ppf prop (n : ℝ) alpha).1 < prop ∧
    prop < (proportion.confint ppf prop (n : ℝ) alpha).2 := by
  have hnR : (0 : ℝ) < (n : ℝ) := by exact_mod_cast hn
  have hvar : 0 < prop * (1 - prop) / (n : ℝ) :=
    div_pos (mul_pos hp1 (by linarith)) hnR
  have hmoe : 0 < ppf (1 - alpha / 2) * Real.sqrt (prop * (1 - prop) / (n : ℝ)) :=
    mul_pos hz (Real.sqrt_pos.mpr hvar)
  refine ⟨rfl, ?_, ?_⟩
  · simp only [proportion.confint]
    linarith
  · simp only [proportion.confint]
    linarith

/-- Witness for C9 at `prop = 1/2`, `n = 100`, `alpha = 0.05` with the
backend quantile fixed at 1.96. -/
theorem c9_confint_brackets_witness :
    proportion.confint (fun _ => 1.96) 0.5 ((100 : ℤ) : ℝ) 0.05 =
      (0.5 - 1.96 * Real.sqrt (0.5 * (1 - 0.5) / ((100 : ℤ) : ℝ)),
       0.5 + 1.96 * Real.sqrt (0.5 * (1 - 0.5) / ((100 : ℤ) : ℝ))) ∧
    (proportion.confint (fun _ => 1.96) 0.5 ((100 : ℤ) : ℝ) 0.05).1 < 0.5 ∧
    0.5 < (proportion.confint (fun _ => 1.96) 0.5 ((100 : ℤ) : ℝ) 0.05).2 :=
  c9_confint_brackets (fun _ => 1.96) 0.5 0.05 100
    (by norm_num) (by norm_num) (by norm_num) (by norm_num) (by norm_num)
    (by norm_num)

/-- C4: with equal-length strata arrays (each sample size at least 2 and at
most its stratum size) and `alpha` in `(0,1)`, `strat_confint` returns the
interval `(p - z*se, p + z*se)` where `p` is the strat-size-weighted
proportion and `se` is the stratified standard error with per-stratum
variance `n_i/(n_i-1) * p_i(1-p_i)` taken at the stratum's sample size
(`specWeightedProportion` and `specStratSE` transcribe the claim's
formulas). -/
theorem c4_strat_confint_formula (ppf : ℝ → ℝ)
    (props sample_sizes strat_sizes : List ℝ) (alpha : ℝ)
    (hlen1 : props.length = sample_sizes.length)
    (hlen2 : sample_sizes.length = strat_sizes.length)
    (hn2 : ∀ i < props.length, 2 ≤ sample_sizes.getD i 0)
    (hns : ∀ i < props.length, sample_sizes.getD i 0 ≤ strat_sizes.getD i 0)
    (ha1 : 0 < alpha) (ha2 : alpha < 1) :
    proportion.strat_confint ppf props sample_sizes strat_sizes alpha =
      (specWeightedProportion props strat_sizes -
         ppf (1 - alpha / 2) * specStratSE props sample_sizes strat_sizes,
       specWeightedProportion props strat_sizes +
         ppf (1 - alpha / 2) * specStratSE props sample_sizes strat_sizes) := by
  have hlen3 : strat_sizes.length = props.length := (hlen1.trans hlen2).symm
  have hvarlen : (List.zipWith (fun n p => n / (n - 1) * p * (1 - p))
      sample_sizes props).length = sample_sizes.length := by
    rw [List.length_zipWith, ← hlen1, min_self]
  have hsum1 : (List.zipWith (fun w p => w * p)
        (strat_sizes.map (fun s => s / strat_sizes.sum)) props).sum =
      ∑ i in Finset.range props.length,
        strat_sizes.getD i 0 / strat_sizes.sum * props.getD i 0 := by
    rw [List.zipWith_map_left, sum_zipWith_eq_range _ _ _ hlen3, hlen3]
  have hsum2 : (zip3With
        (fun s n v => s ^ 2 * (1 / strat_sizes.sum) ^ 2 * (1 - n / s) * v / n)
        strat_sizes sample_sizes
        (List.zipWith (fun n p => n / (n - 1) * p * (1 - p)) sample_sizes props)).sum =
      ∑ i in Finset.range props.length,
        strat_sizes.getD i 0 ^ 2 * (1 / strat_sizes.sum) ^ 2 *
          (1 - sample_sizes.getD i 0 / strat_sizes.getD i 0) *
          (sample_sizes.getD i 0 / (sample_sizes.getD i 0 - 1) *
            props.getD i 0 * (1 - props.getD i 0)) / sample_sizes.getD i 0 := by
    rw [sum_zip3With_eq_range _ _ _ _ hlen2.symm hvarlen.symm, hlen3]
    refine Finset.sum_congr rfl ?_
    intro i hi
    rw [Finset.mem_range] at hi
    rw [getD_zipWith_combine _ sample_sizes props i (hlen1 ▸ hi) hi]
  simp only [proportion.strat_confint, proportion.strat_proportion,
    specWeightedProportion, specStratSE, Prod.mk.injEq]
  rw [hsum1, hsum2]
  exact ⟨rfl, rfl⟩

theorem ndiv_none_left (x : Option ℝ) : ndiv none x = none := rfl

theorem ndiv_none_right (x : Option ℝ) : ndiv x none = none := by
  cases x <;> rfl

theorem nadd_none_left (x : Option ℝ) : nadd none x = none := rfl

theorem nadd_none_right (x : Option ℝ) : nadd x none = none := by
  cases x <;> rfl

theorem nmul_none_left (x : Option ℝ) : nmul none x = none := rfl

theorem nmul_none_right (x : Option ℝ) : nmul x none = none := by
  cases x <;> rfl

theorem nsub_none_right (x : Option ℝ) : nsub x none = none := by
  cases x <;> rfl

theorem nsqrt_none : nsqrt none = none := rfl

theorem nmap_none (f : ℝ → ℝ) : nmap f none = none := rfl

theorem nmap2_none_left (f : ℝ → ℝ → ℝ) (x : Option ℝ) : nmap2 f none x = none := rfl

theorem nmap2_none_right (f : ℝ → ℝ → ℝ) (x : Option ℝ) : nmap2 f x none = none := by
  cases x <;> rfl

/-- C1 (code bug): the alias `ha = "t"` passes `ztest_2prop`'s `valid_ha`
check but `_ztest_p` only matches the full words, so no branch assigns `p`
and the call fails with `UnboundLocalError` — instead of returning the same
result as `ha = "two-sided"`, which succeeds on the same numeric inputs
(shown at `x_treat = x_ctrl = 1`, `n_treat = n_ctrl = 2` with a
representative backend). -/
theorem c1_ztest_alias_bug :
    misc.ztest_2prop (fun x => x) (fun x => x) (fun x => x) 1 2 1 2 0.05 "t" =
      .error "UnboundLocalError" ∧
    ∃ r, misc.ztest_2prop (fun x => x) (fun x => x) (fun x => x) 1 2 1 2 0.05
      "two-sided" = .ok r := by
  have h2 : (2 : ℝ) ≠ 0 := by norm_num
  have h4 : (2 : ℝ) + 2 ≠ 0 := by norm_num
  have harg : (0 : ℝ) ≤ (1 + 1) / (2 + 2) * (1 - (1 + 1) / (2 + 2)) * (1 / 2 + 1 / 2) := by
    norm_num
  have hsqrt : Real.sqrt ((1 + 1) / (2 + 2) * (1 - (1 + 1) / (2 + 2)) * (1 / 2 + 1 / 2)) ≠ 0 := by
    refine ne_of_gt (Real.sqrt_pos.mpr ?_)
    norm_num
  have hpc : (1 : ℝ) / 2 ≠ 0 := by norm_num
  constructor
  · simp only [misc.ztest_2prop]
    rw [if_neg (by decide :
      ¬(strLower "t" ∉ (["two-sided", "t", "greater", "g", "less", "l"] : List String)))]
    rw [show strLower "t" = "t" from by decide]
    simp only [zdiv_ok _ h2, zdiv_ok _ h4, ssqrt_ok harg, zdiv_ok _ hsqrt]
    simp [misc.ztestP]
  · simp only [misc.ztest_2prop]
    rw [if_neg (by decide :
      ¬(strLower "two-sided" ∉ (["two-sided", "t", "greater", "g", "less", "l"] : List String)))]
    rw [show strLower "two-sided" = "two-sided" from by decide]
    simp only [zdiv_ok _ h2, zdiv_ok _ h4, ssqrt_ok harg, zdiv_ok _ hsqrt]
    simp only [misc.ztestP, misc.confint]
    simp only [zdiv_ok _ hpc]
    norm_num

/-- C8 (amended): for counts `0 < x < n`, `ztest_2prop(x, n, x, n)` succeeds
and yields z-statistic 0, two-sided p-value `2·sf(0) = 1` (using the standard
normal survival value `sf(0) = 1/2` of the backend), and lift 0.  (At the
boundary counts `x = 0` or `x = n` the pooled standard error is zero and the
source raises `ZeroDivisionError` instead; see the counterexample.) -/
theorem c8_ztest_identical_groups (cdf sf ppf : ℝ → ℝ) (x n alpha : ℝ)
    (hx : 0 < x) (hxn : x < n) (hsf : sf 0 = 1 / 2) :
    ∃ r : misc.ZtestResult,
      misc.ztest_2prop cdf sf ppf x n x n alpha "two-sided" = .ok r ∧
      r.z = 0 ∧ r.p = 1 ∧ r.lift = 0 := by
  have hn : (0 : ℝ) < n := hx.trans hxn
  have hn0 : n ≠ 0 := hn.ne'
  have hnn : n + n ≠ 0 := by positivity
  have hp1 : 0 < x / n := div_pos hx hn
  have hp2 : x / n < 1 := (div_lt_one hn).mpr hxn
  have hP : (x + x) / (n + n) = x / n := by
    rw [div_eq_div_iff hnn hn0]
    ring
  have hargpos : 0 < (x + x) / (n + n) * (1 - (x + x) / (n + n)) * (1 / n + 1 / n) := by
    rw [hP]
    have h1n : 0 < 1 / n + 1 / n := by positivity
    exact mul_pos (mul_pos hp1 (by linarith)) h1n
  have hsqrt : Real.sqrt ((x + x) / (n + n) * (1 - (x + x) / (n + n)) * (1 / n + 1 / n)) ≠ 0 :=
    ne_of_gt (Real.sqrt_pos.mpr hargpos)
  have hpc : x / n ≠ 0 := hp1.ne'
  have he1 : 2 * ((1 : ℝ) / 2) = 1 := by norm_num
  simp only [misc.ztest_2prop]
  rw [if_neg (by decide :
    ¬(strLower "two-sided" ∉ (["two-sided", "t", "greater", "g", "less", "l"] : List String)))]
  rw [show strLower "two-sided" = "two-sided" from by decide]
  simp only [zdiv_ok _ hn0, zdiv_ok _ hnn, ssqrt_ok hargpos.le, zdiv_ok _ hsqrt,
    misc.ztestP, misc.confint]
  simp only [sub_self, zero_div, abs_zero, hsf, he1, div_self hpc]
  simp only [zdiv_ok _ hpc]
  simp only [div_self hpc, sub_self]
  exact ⟨_, rfl, rfl, rfl, rfl⟩

/-- Witness for C8 at `x = 1, n = 2` with a backend whose survival function
takes the standard normal value 1/2 at 0. -/
theorem c8_ztest_identical_groups_witness :
    ∃ r : misc.ZtestResult,
      misc.ztest_2prop (fun _ => 1 / 2) (fun _ => 1 / 2) (fun y => y) 1 2 1 2 0.05
        "two-sided" = .ok r ∧
      r.z = 0 ∧ r.p = 1 ∧ r.lift = 0 :=
  c8_ztest_identical_groups (fun _ => 1 / 2) (fun _ => 1 / 2) (fun y => y) 1 2 0.05
    (by norm_num) (by norm_num) rfl

/-- Counterexample for C8: at the legitimate count `x = 0` (with `n = 1`) the
pooled proportion is 0, the pooled standard error is 0, and the z-statistic
division raises `ZeroDivisionError` — the test does not return `z = 0`,
`p = 1`, `lift = 0` for every count. -/
theorem c8_counterexample :
    misc.ztest_2prop (fun y => y) (fun y => y) (fun y => y) 0 1 0 1 0.05
      "two-sided" = .error "ZeroDivisionError" := by
  have h1 : (1 : ℝ) ≠ 0 := by norm_num
  have h11 : (1 : ℝ) + 1 ≠ 0 := by norm_num
  have harg : (0 : ℝ) ≤ (0 + 0) / (1 + 1) * (1 - (0 + 0) / (1 + 1)) * (1 / 1 + 1 / 1) := by
    norm_num
  have hsqrt0 : Real.sqrt ((0 + 0) / (1 + 1) * (1 - (0 + 0) / (1 + 1)) * (1 / 1 + 1 / 1)) = 0 := by
    rw [show ((0 : ℝ) + 0) / (1 + 1) * (1 - (0 + 0) / (1 + 1)) * (1 / 1 + 1 / 1) = 0 by norm_num]
    exact Real.sqrt_zero
  simp only [misc.ztest_2prop]
  rw [if_neg (by decide :
    ¬(strLower "two-sided" ∉ (["two-sided", "t", "greater", "g", "less", "l"] : List String)))]
  simp only [zdiv_ok _ h1, zdiv_ok _ h11, ssqrt_ok harg, zdiv_err _ hsqrt0]

/-- Witness for C4 at two concrete strata. -/
theorem c4_strat_confint_formula_witness :
    proportion.strat_confint (fun _ => 2) [0.5, 0.25] [2, 4] [4, 8] 0.05 =
      (specWeightedProportion [0.5, 0.25] [4, 8] -
         2 * specStratSE [0.5, 0.25] [2, 4] [4, 8],
       specWeightedProportion [0.5, 0.25] [4, 8] +
         2 * specStratSE [0.5, 0.25] [2, 4] [4, 8]) :=
  c4_strat_confint_formula (fun _ => 2) [0.5, 0.25] [2, 4] [4, 8] 0.05
    rfl rfl
    (by
      intro i hi
      simp only [List.length_cons, List.length_nil] at hi
      interval_cases i <;> norm_num)
    (by
      intro i hi
      simp only [List.length_cons, List.length_nil] at hi
      interval_cases i <;> norm_num)
    (by norm_num) (by norm_num)

/-- C6 (amended): `welch_ttest` performs no group-size validation — with a
valid `ha` it succeeds even when a group has fewer than 2 observations; the
sample variance (ddof=1) of the short group is NaN, so the t-statistic, the
Welch-Satterthwaite degrees of freedom and the p-value are all NaN (`none`)
instead of an `InvalidArgument` failure being raised. -/
theorem c6_welch_short_group_nan (tcdf tsf tppf : ℝ → ℝ → ℝ)
    (treat ctrl : List ℝ) (alpha : ℝ) (ha : String)
    (hha : strLower ha = "two-sided" ∨ strLower ha = "greater" ∨ strLower ha = "less")
    (hlen : treat.length < 2 ∨ ctrl.length < 2) :
    ∃ r : misc.WelchResult,
      misc.welch_ttest tcdf tsf tppf treat ctrl alpha ha = .ok r ∧
      r.t = none ∧ r.dof = none ∧ r.p = none := by
  simp only [misc.welch_ttest]
  cases hlen with
  | inl h =>
    have hvt : misc.seriesVar treat = none := by simp [misc.seriesVar, h]
    rcases hha with hh | hh | hh <;>
    · rw [hh, if_neg (by decide)]
      simp only [hvt, ndiv_none_left, nadd_none_left, nsqrt_none, ndiv_none_right,
        nmul_none_left, misc.ttestP, nmap2_none_left, nmap2_none_right, nmap_none]
      exact ⟨_, rfl, rfl, rfl, rfl⟩
  | inr h =>
    have hvc : misc.seriesVar ctrl = none := by simp [misc.seriesVar, h]
    rcases hha with hh | hh | hh <;>
    · rw [hh, if_neg (by decide)]
      simp only [hvc, ndiv_none_left, nadd_none_left, nadd_none_right, nsqrt_none,
        ndiv_none_right, nmul_none_left, misc.ttestP, nmap2_none_left,
        nmap2_none_right, nmap_none]
      exact ⟨_, rfl, rfl, rfl, rfl⟩

/-- Witness for C6 with a 1-observation treatment group. -/
theorem c6_welch_short_group_nan_witness :
    ∃ r : misc.WelchResult,
      misc.welch_ttest (fun _ _ => 0) (fun _ _ => 0) (fun _ _ => 0)
        [1] [1, 2, 3] 0.05 "two-sided" = .ok r ∧
      r.t = none ∧ r.dof = none ∧ r.p = none :=
  c6_welch_short_group_nan (fun _ _ => 0) (fun _ _ => 0) (fun _ _ => 0)
    [1] [1, 2, 3] 0.05 "two-sided"
    (Or.inl (by decide)) (Or.inl (by decide))

/-- Counterexample for C6: a 1-observation treatment group is not rejected —
the call returns an ordinary (NaN-laden) result instead of failing with
`InvalidArgument`. -/
theorem c6_counterexample :
    ∃ r : misc.WelchResult,
      misc.welch_ttest (fun _ _ => 1) (fun _ _ => 1) (fun _ _ => 1)
        [5] [1, 2, 3] 0.05 "less" = .ok r := by
  simp only [misc.welch_ttest]
  rw [show strLower "less" = "less" from by decide, if_neg (by decide)]
  have hvt : misc.seriesVar [(5 : ℝ)] = none := by simp [misc.seriesVar]
  simp only [hvt, ndiv_none_left, nadd_none_left, nsqrt_none, ndiv_none_right,
    nmul_none_left, misc.ttestP, nmap2_none_left, nmap_none]
  exact ⟨_, rfl⟩
